import Mathlib

/-!
# Verification of the Sotto voice-transcription core

A shallow embedding of the Sotto repository's core pipeline and of the
model-card controller from the settings UI, with theorems settling the
specification's claims about them.

The TypeScript model-card controller (`handleAction`, `computePercent`,
`setActiveFromEvent`, `refreshStatuses`) is embedded from its source.
The native backend components (Resampler, TextInserter,
TranscriptionEngine, HotkeyStateMachine, ModelLifecycleCoordinator,
Orchestrator) live in `src-tauri/src/lib.rs`, which is not part of the
frontend sources; those are modelled from the specification's text.
-/

namespace Sotto

/-! ## Resampler -/

/-- Nearest-integer rounding of the ratio `r / t` on naturals
(round half up), used as the decimation step `round(R / T)`. -/
def roundRatio (r t : Nat) : Nat :=
  (2 * r + t) / (2 * t)

/-- Modelled from the spec: the `Resampler` of the native backend
(`src-tauri/src/lib.rs`, not in the frontend sources).  Pure stateless
decimation: keep the first of every `step` consecutive input samples
(sample selection, no averaging or filtering). -/
def decimate (step : Nat) : List α → List α
  | [] => []
  | x :: rest => x :: decimate step (rest.drop (step - 1))
termination_by xs => xs.length
decreasing_by
  simp only [List.length_drop, List.length_cons]
  omega

/-- Modelled from the spec: resampling a sample sequence from source
rate `r` to target rate `t` decimates by step `round(r / t)`. -/
def resample (r t : Nat) (xs : List α) : List α :=
  decimate (roundRatio r t) xs

/-- Ceiling division, the spec's `ceil(L / s)`. -/
def ceilDiv (l s : Nat) : Nat :=
  (l + s - 1) / s

/-! ## TextInserter -/

/-- Failures of the two fallible steps of `TextInserter.insert`. -/
inductive InsertError
  | clipboardWriteFailed
  | pasteFailed
deriving DecidableEq, Repr

/-- Environment of one `insert` call: whether the clipboard write
(step 2) and the simulated paste keystroke (step 3) succeed. -/
structure InsertEnv where
  writeOk : Bool
  pasteOk : Bool
deriving DecidableEq, Repr

/-- A primitive clipboard mutation performed by `insert`. -/
inductive ClipOp
  | write (s : String)
  | restore (s : String)
deriving DecidableEq, Repr

/-- Applying one clipboard mutation to the clipboard content. -/
def applyClipOp (_clip : String) : ClipOp → String
  | .write s => s
  | .restore s => s

/-- Running a sequence of clipboard mutations in order. -/
def runClipOps (clip : String) : List ClipOp → String
  | [] => clip
  | op :: rest => runClipOps (applyClipOp clip op) rest

/-- Number of restore operations in a mutation sequence. -/
def restoreCount (ops : List ClipOp) : Nat :=
  ops.countP (fun op => match op with | .restore _ => true | .write _ => false)

/-- Outcome of one `insert` call: the reported error, if any, and the
ordered clipboard mutations the call performed. -/
structure InsertOutcome where
  error : Option InsertError
  ops : List ClipOp
deriving DecidableEq, Repr

/-- Modelled from the spec: `TextInserter.insert` of the native backend
(`src-tauri/src/lib.rs`, not in the frontend sources).  Step 1 snapshots
the clipboard, step 2 writes the text into the clipboard, step 3
simulates a paste keystroke, and step 4 restores the snapshot on every
exit path, including when step 2 or 3 fails (a try/finally in the
source).  Paste failure is reported but not re-thrown past the restore. -/
def TextInserter.insert (text clip : String) (env : InsertEnv) : InsertOutcome :=
  let snapshot := clip
  if env.writeOk = false then
    { error := some .clipboardWriteFailed, ops := [.restore snapshot] }
  else if env.pasteOk = false then
    { error := some .pasteFailed, ops := [.write text, .restore snapshot] }
  else
    { error := none, ops := [.write text, .restore snapshot] }

/-! ## TranscriptionEngine and Orchestrator -/

/-- Result of a transcription attempt. -/
inductive TranscriptionResult
  | text (s : String)
  | tooShort
  | transcriptionError
deriving DecidableEq, Repr

/-- Modelled from the spec: `TranscriptionEngine.transcribe` of the
native backend (`src-tauri/src/lib.rs`, not in the frontend sources).
Buffers shorter than the minimum-duration threshold are rejected with
`tooShort` before any model invocation; otherwise the active model runs
once and empty output becomes `transcriptionError`.  The second
component counts model invocations performed by the call. -/
def transcribe (model : List ℚ → String) (minSamples : Nat) (buf : List ℚ) :
    TranscriptionResult × Nat :=
  if buf.length < minSamples then
    (.tooShort, 0)
  else
    let out := model buf
    (if out = "" then .transcriptionError else .text out, 1)

/-- Orchestrator states. -/
inductive OrchState
  | idle
  | recording
  | transcribing
  | inserting
deriving DecidableEq, Repr

/-- Events driving the Orchestrator. -/
inductive OrchEvent
  | started
  | stopped
  | result (r : TranscriptionResult)
deriving DecidableEq, Repr

/-- One Orchestrator transition: successor state, text handed to the
TextInserter during the transition (if any), and whether an error was
surfaced. -/
structure OrchStep where
  state : OrchState
  insertedText : Option String
  errorSurfaced : Bool
deriving DecidableEq, Repr

/-- Modelled from the spec: the Orchestrator state machine of the native
backend (`src-tauri/src/lib.rs`, not in the frontend sources).
Idle + started enters Recording; Recording + stopped enters
Transcribing; Transcribing + result(text) enters Inserting and hands the
text to the TextInserter; Transcribing + result(TooShort) returns
directly to Idle with no insertion and no error surfaced;
Transcribing + result(error) returns to Idle surfacing the error. -/
def orchStep : OrchState → OrchEvent → OrchStep
  | .idle, .started => ⟨.recording, none, false⟩
  | .recording, .stopped => ⟨.transcribing, none, false⟩
  | .transcribing, .result (.text s) => ⟨.inserting, some s, false⟩
  | .transcribing, .result .tooShort => ⟨.idle, none, false⟩
  | .transcribing, .result .transcriptionError => ⟨.idle, none, true⟩
  | .inserting, _ => ⟨.idle, none, false⟩
  | s, _ => ⟨s, none, false⟩

/-! ## ModelLifecycleCoordinator -/

/-- Model identifiers. -/
abbrev ModelId := String

/-- Coordinator state: the currently loaded model context, whether a
transcription is in flight, and the model files present on disk. -/
structure CoordState where
  active : Option ModelId
  transcribing : Bool
  files : List ModelId
deriving DecidableEq, Repr

/-- Failure modes of `switchModel`. -/
inductive SwitchError
  | modelNotAvailable
  | busy
  | modelLoadError
deriving DecidableEq, Repr

/-- Observable resource events emitted by coordinator operations. -/
inductive CoordEvent
  | loadCtx (m : ModelId)
  | discardCtx (m : ModelId)
deriving DecidableEq, Repr

/-- Result of a `switchModel` call: outcome, successor state, and the
ordered resource events the call performed. -/
structure SwitchResult where
  result : Except SwitchError Unit
  state : CoordState
  events : List CoordEvent
deriving Repr

/-- Modelled from the spec: `switchModel` of the native backend
(`src-tauri/src/lib.rs`, not in the frontend sources).  Fails with
`busy` while a transcription is in flight, with `modelNotAvailable` when
the named model's data is not present locally, and with
`modelLoadError` when loading the new context fails (`loadOk` tells
which contexts load successfully); on success the new context is loaded
first and only then is the previous one discarded. -/
def switchModel (loadOk : ModelId → Bool) (s : CoordState) (name : ModelId) :
    SwitchResult :=
  if s.transcribing then
    ⟨.error .busy, s, []⟩
  else if s.files.contains name = false then
    ⟨.error .modelNotAvailable, s, []⟩
  else if loadOk name then
    ⟨.ok (), { s with active := some name },
      .loadCtx name ::
        (match s.active with
         | some old => [.discardCtx old]
         | none => [])⟩
  else
    ⟨.error .modelLoadError, s, []⟩

/-- Completion of the in-flight transcription: the coordinator's
mutual-exclusion boundary is released. -/
def finishTranscribe (s : CoordState) : CoordState :=
  { s with transcribing := false }

/-- Failure mode of `removeModel`. -/
inductive RemoveError
  | activeModelError
deriving DecidableEq, Repr

/-- Modelled from the spec: `removeModel` of the native backend
(`src-tauri/src/lib.rs`, not in the frontend sources; the frontend's
`handleAction` surfaces its currently-active failure).  Removing the
currently loaded model fails with `activeModelError` and leaves the
file untouched; otherwise the model file is deleted. -/
def removeModel (s : CoordState) (name : ModelId) :
    Except RemoveError Unit × CoordState :=
  if s.active = some name then
    (.error .activeModelError, s)
  else
    (.ok (), { s with files := s.files.erase name })

/-! ## HotkeyStateMachine -/

/-- The two configured hotkey chords. -/
inductive Chord
  | optionSpace
  | ctrlOptionSpace
deriving DecidableEq, Repr

/-- Hotkey machine states. -/
inductive HotkeyState
  | idle
  | armed (c : Chord)
deriving DecidableEq, Repr

/-- Key events delivered to the machine. -/
inductive KeyEvent
  | keyDown (c : Chord)
  | keyUp (c : Chord)
deriving DecidableEq, Repr

/-- Transitions the machine emits to the Orchestrator. -/
inductive HotkeyEmit
  | started
  | stopped
deriving DecidableEq, Repr

/-- Modelled from the spec: the `HotkeyStateMachine` of the native
backend (`src-tauri/src/lib.rs`, not in the frontend sources).  A
matching chord key-down arms the machine and emits `started`; a key-up
of the armed chord disarms it and emits `stopped`; key-downs while
armed are ignored (no re-trigger on OS key-repeat); a key-up that does
not match a currently-armed chord is a no-op. -/
def hotkeyStep : HotkeyState → KeyEvent → HotkeyState × Option HotkeyEmit
  | .idle, .keyDown c => (.armed c, some .started)
  | .idle, .keyUp _ => (.idle, none)
  | .armed c, .keyDown _ => (.armed c, none)
  | .armed c, .keyUp k => if k = c then (.idle, some .stopped) else (.armed c, none)

/-! ## Model-card controller (settings UI, embedded from the source) -/

/-- The actions of the model-card controller (`ModelAction` in the
source). -/
inductive ModelAction
  | use
  | download
  | refresh
  | remove
  | confirmRemove
  | cancelRemove
deriving DecidableEq, Repr

/-- The per-model UI state (`ModelState` in the source).  JavaScript
numbers are modelled as rationals. -/
structure ModelState where
  isDownloaded : Bool
  isDownloading : Bool
  isActive : Bool
  downloadedBytes : ℚ
  totalBytes : Option ℚ
  progressPercent : Option ℚ
  error : Option String
  inFlightAction : Option ModelAction
  pendingLabel : Option String
  isConfirmingRemoval : Bool
deriving DecidableEq, Repr

/-- The fresh state installed by `ensureState` for an unknown model. -/
def initialModelState : ModelState :=
  { isDownloaded := false
    isDownloading := false
    isActive := false
    downloadedBytes := 0
    totalBytes := none
    progressPercent := none
    error := none
    inFlightAction := none
    pendingLabel := none
    isConfirmingRemoval := false }

/-- `computePercent` from the source: `null` when `totalBytes` is null
or zero, otherwise `(downloadedBytes / totalBytes) * 100` clamped by
`Math.min(100, Math.max(0, _))`. -/
def computePercent (downloadedBytes : ℚ) (totalBytes : Option ℚ) : Option ℚ :=
  match totalBytes with
  | none => none
  | some t =>
      if t = 0 then none
      else some (min 100 (max 0 (downloadedBytes / t * 100)))

/-- One backend entry of `get_model_statuses` (`BackendModelStatus` in
the source), restricted to the fields `refreshStatuses` reads. -/
structure BackendModelStatus where
  is_downloaded : Bool
  is_downloading : Bool
  is_active : Bool
  downloaded_bytes : ℚ
  total_bytes : Option ℚ
  error : Option String
deriving DecidableEq, Repr

/-- The per-model update performed by `refreshStatuses` on one status
entry (the body of its `statuses.forEach`). -/
def applyStatus (st : ModelState) (status : BackendModelStatus) : ModelState :=
  { st with
    isDownloaded := status.is_downloaded
    isDownloading := status.is_downloading
    isActive := status.is_active
    downloadedBytes := status.downloaded_bytes
    totalBytes := status.total_bytes
    progressPercent :=
      if status.is_downloading then
        computePercent status.downloaded_bytes status.total_bytes
      else if status.is_downloaded then some 100 else none
    error := status.error
    isConfirmingRemoval :=
      if status.is_downloaded then st.isConfirmingRemoval else false }

/-- Substring test on strings, used for the source's
`message.includes('currently active')`. -/
def strContains (haystack needle : String) : Bool :=
  (List.range (haystack.length + 1)).any
    (fun i => needle.data.isPrefixOf (haystack.data.drop i))

/-- The `effectiveAction` computed by `handleAction`: `confirm-remove`
performs a removal, every other action stands for itself. -/
def effectiveActionOf : ModelAction → ModelAction
  | .confirmRemove => .remove
  | a => a

/-- The `pendingLabel` `handleAction` installs for an effective
action. -/
def pendingLabelFor : ModelAction → Option String
  | .use => some "Switching…"
  | .download => some "Preparing download…"
  | .refresh => some "Refreshing…"
  | .remove => some "Removing…"
  | _ => none

/-- Environment of one `handleAction` call: whether the backend invoke
resolves, the message extracted on rejection, and the status entry the
follow-up `refreshStatuses` delivers for this model (`none` when the
fetch fails and `refreshStatuses` leaves the state untouched). -/
structure ActionEnv where
  invokeOk : Bool
  errorMessage : String
  refreshedStatus : Option BackendModelStatus
deriving DecidableEq, Repr

/-- `handleAction` from the source, for one model's state.  An in-flight
action makes the call a no-op; `remove` and `cancel-remove` only toggle
the confirmation flag; the remaining actions mark the action in flight,
install a pending label, run the backend invoke, on success apply the
follow-up status refresh, on rejection record the confirmation hint for
an active-model removal, and in the `finally` block always clear
`inFlightAction` and `pendingLabel`. -/
def handleAction (env : ActionEnv) (st : ModelState) (action : ModelAction) :
    ModelState :=
  if st.inFlightAction.isSome then st
  else if action = .remove then
    { st with isConfirmingRemoval := true, pendingLabel := none }
  else if action = .cancelRemove then
    { st with isConfirmingRemoval := false, pendingLabel := none }
  else
    let eff := effectiveActionOf action
    let st1 := { st with
      inFlightAction := some eff
      pendingLabel := pendingLabelFor eff
      error := none }
    let st2 :=
      if env.invokeOk then
        let st1a :=
          if action = .confirmRemove then { st1 with isConfirmingRemoval := false }
          else st1
        match env.refreshedStatus with
        | some status => applyStatus st1a status
        | none => st1a
      else
        if eff = .remove ∧ strContains env.errorMessage "currently active" then
          { st1 with isConfirmingRemoval := true }
        else st1
    { st2 with inFlightAction := none, pendingLabel := none }

/-- `setActiveFromEvent` from the source: every model state's
`isActive` becomes `activeName !== null && name === activeName`. -/
def setActiveFromEvent (states : List (String × ModelState))
    (activeName : Option String) : List (String × ModelState) :=
  states.map (fun p =>
    (p.1, { p.2 with
      isActive := match activeName with
        | none => false
        | some a => p.1 == a }))

/-! ## Helper lemmas -/

theorem decimate_length (step : Nat) (h : 0 < step) (xs : List α) :
    (decimate step xs).length = (xs.length + step - 1) / step := by
  induction xs using decimate.induct step with
  | case1 => simp [decimate, Nat.div_eq_of_lt, h]
  | case2 x rest ih =>
    simp only [decimate, List.length_cons, ih, List.length_drop]
    have hr : rest.length + 1 + step - 1 = rest.length + step := by omega
    rw [hr, Nat.add_div_right _ h, Nat.add_right_cancel_iff]
    rcases Nat.lt_or_ge rest.length (step - 1) with hc | hc
    · have h1 : rest.length - (step - 1) = 0 := by omega
      rw [h1, Nat.div_eq_of_lt (by omega), Nat.div_eq_of_lt (by omega)]
    · have h1 : rest.length - (step - 1) + step - 1 = rest.length := by omega
      rw [h1]

theorem decimate_getElem (step : Nat) (h : 0 < step) (xs : List α) :
    ∀ i : Nat, (decimate step xs)[i]? = xs[i * step]? := by
  induction xs using decimate.induct step with
  | case1 => intro i; simp [decimate]
  | case2 x rest ih =>
    intro i
    cases i with
    | zero => simp [decimate]
    | succ i =>
      obtain ⟨s, rfl⟩ : ∃ s, step = s + 1 := ⟨step - 1, by omega⟩
      simp only [decimate, List.getElem?_cons_succ, ih, List.getElem?_drop]
      have he : (i + 1) * (s + 1) = (s + 1 - 1 + i * (s + 1)) + 1 := by ring_nf; omega
      rw [he, List.getElem?_cons_succ]

theorem roundRatio_pos (r t : Nat) (ht : 0 < t) (hlt : t < r) :
    0 < roundRatio r t := by
  show 1 ≤ roundRatio r t
  rw [roundRatio, Nat.le_div_iff_mul_le (by omega)]
  omega

/-! ## Claim theorems -/

/-- C1: for every input sample sequence of length `L` at source rate `R`
resampled to target rate `T` with `T < R`, the Resampler's output has
length `ceil(L / round(R/T))`, and every output sample `i` within that
output equals input sample `i * round(R/T)` exactly (pure sample
selection, no averaging or filtering). -/
theorem resample_correct {α : Type} (r t : Nat) (ht : 0 < t) (hlt : t < r)
    (xs : List α) :
    (resample r t xs).length = ceilDiv xs.length (roundRatio r t) ∧
    ∀ i : Nat, i < (resample r t xs).length →
      (resample r t xs)[i]? = xs[i * roundRatio r t]? := by
  have hs : 0 < roundRatio r t := roundRatio_pos r t ht hlt
  exact ⟨decimate_length _ hs xs, fun i _ => decimate_getElem _ hs xs i⟩

/-- Witness for C1 at `R = 48000`, `T = 16000`, a 7-sample input:
step 3, output `[1, 4, 7]` of length `ceil(7/3) = 3`. -/
theorem resample_correct_witness :
    ((0:Nat) < 16000 ∧ 16000 < 48000) ∧
    ((resample 48000 16000 [(1:Nat), 2, 3, 4, 5, 6, 7]).length
        = ceilDiv [(1:Nat), 2, 3, 4, 5, 6, 7].length (roundRatio 48000 16000) ∧
     ∀ i : Nat, i < (resample 48000 16000 [(1:Nat), 2, 3, 4, 5, 6, 7]).length →
       (resample 48000 16000 [(1:Nat), 2, 3, 4, 5, 6, 7])[i]?
         = [(1:Nat), 2, 3, 4, 5, 6, 7][i * roundRatio 48000 16000]?) :=
  ⟨⟨by decide, by decide⟩,
   resample_correct 48000 16000 (by decide) (by decide) [1, 2, 3, 4, 5, 6, 7]⟩

/-- C2: on every exit path of `TextInserter.insert` — including when the
clipboard write (step 2) or the simulated paste (step 3) fails — the
snapshot taken in step 1 is restored exactly once, so the clipboard
content after the call equals its pre-call content. -/
theorem insert_clipboard_restored (text clip : String) (env : InsertEnv) :
    runClipOps clip (TextInserter.insert text clip env).ops = clip ∧
    restoreCount (TextInserter.insert text clip env).ops = 1 := by
  obtain ⟨w, p⟩ := env
  cases w <;> cases p <;>
    simp [TextInserter.insert, runClipOps, applyClipOp, restoreCount, List.countP,
      List.countP.go]

/-- C3: for every sample buffer shorter than the minimum-duration
threshold, `transcribe` returns `TooShort` with zero model invocations,
and the Orchestrator transitions from Transcribing directly to Idle
with no text insertion and no error surfaced. -/
theorem tooShort_skips_model (model : List ℚ → String) (minSamples : Nat)
    (buf : List ℚ) (h : buf.length < minSamples) :
    transcribe model minSamples buf = (.tooShort, 0) ∧
    orchStep .transcribing (.result .tooShort) = ⟨.idle, none, false⟩ := by
  exact ⟨by simp [transcribe, h], rfl⟩

/-- Witness for C3: a 1-sample buffer against a 4800-sample (300 ms at
16 kHz) threshold. -/
theorem tooShort_skips_model_witness :
    ([(1:ℚ)].length < 4800) ∧
    (transcribe (fun _ => "hello") 4800 [(1:ℚ)] = (.tooShort, 0) ∧
     orchStep .transcribing (.result .tooShort) = ⟨.idle, none, false⟩) :=
  ⟨by decide, tooShort_skips_model (fun _ => "hello") 4800 [1] (by decide)⟩

/-- C4: a `switchModel` call issued while a transcription is in flight
returns `Busy` immediately with the coordinator state (in particular
the previously active model) unchanged; once the in-flight call has
completed, the same request succeeds given the target model is
downloaded (and its context loads). -/
theorem switchModel_busy_then_succeeds (loadOk : ModelId → Bool)
    (s : CoordState) (name : ModelId) (hbusy : s.transcribing = true)
    (hdl : (finishTranscribe s).files.contains name = true)
    (hload : loadOk name = true) :
    switchModel loadOk s name = ⟨.error .busy, s, []⟩ ∧
    (switchModel loadOk (finishTranscribe s) name).result = .ok () ∧
    (switchModel loadOk (finishTranscribe s) name).state.active = some name := by
  refine ⟨?_, ?_, ?_⟩ <;>
    simp [switchModel, finishTranscribe, hbusy, hdl, hload] <;>
    simp [finishTranscribe] at hdl <;> simp [hdl]

/-- Witness for C4: a coordinator transcribing with "tiny" active and
"base" downloaded. -/
theorem switchModel_busy_then_succeeds_witness :
    (CoordState.mk (some "tiny") true ["tiny", "base"]).transcribing = true ∧
    (switchModel (fun _ => true) ⟨some "tiny", true, ["tiny", "base"]⟩ "base"
        = ⟨.error .busy, ⟨some "tiny", true, ["tiny", "base"]⟩, []⟩ ∧
     (switchModel (fun _ => true)
        (finishTranscribe ⟨some "tiny", true, ["tiny", "base"]⟩) "base").result
        = .ok () ∧
     (switchModel (fun _ => true)
        (finishTranscribe ⟨some "tiny", true, ["tiny", "base"]⟩) "base").state.active
        = some "base") :=
  ⟨rfl, switchModel_busy_then_succeeds (fun _ => true)
    ⟨some "tiny", true, ["tiny", "base"]⟩ "base" rfl (by decide) rfl⟩

/-- C5: on a non-busy `switchModel` of a downloaded model, success
loads the new context first (the load event heads the trace, any
discard of the old context follows it) and ends with the new model
active; on load failure the call returns `ModelLoadError` and the
coordinator state — in particular the previously active context — is
unchanged, with no discard performed. -/
theorem switchModel_atomic (loadOk : ModelId → Bool) (s : CoordState)
    (name : ModelId) (hnb : s.transcribing = false)
    (hdl : s.files.contains name = true) :
    (loadOk name = true →
       (switchModel loadOk s name).result = .ok () ∧
       (switchModel loadOk s name).state.active = some name ∧
       (switchModel loadOk s name).events.head? = some (.loadCtx name) ∧
       ∀ old, s.active = some old →
         (switchModel loadOk s name).events = [.loadCtx name, .discardCtx old]) ∧
    (loadOk name = false →
       switchModel loadOk s name = ⟨.error .modelLoadError, s, []⟩) := by
  have hmem : name ∈ s.files := by simpa using hdl
  constructor
  · intro hload
    refine ⟨?_, ?_, ?_, ?_⟩
    · simp [switchModel, hnb, hmem, hload]
    · simp [switchModel, hnb, hmem, hload]
    · simp [switchModel, hnb, hmem, hload]
    · intro old hold
      simp [switchModel, hnb, hmem, hload, hold]
  · intro hload
    simp [switchModel, hnb, hmem, hload]

/-- Witness for C5: switching from active "tiny" to downloaded "base"
whose context loads. -/
theorem switchModel_atomic_witness :
    ((CoordState.mk (some "tiny") false ["tiny", "base"]).transcribing = false ∧
     (CoordState.mk (some "tiny") false ["tiny", "base"]).files.contains "base"
        = true) ∧
    (((fun _ : ModelId => true) "base" = true →
       (switchModel (fun _ => true) ⟨some "tiny", false, ["tiny", "base"]⟩
          "base").result = .ok () ∧
       (switchModel (fun _ => true) ⟨some "tiny", false, ["tiny", "base"]⟩
          "base").state.active = some "base" ∧
       (switchModel (fun _ => true) ⟨some "tiny", false, ["tiny", "base"]⟩
          "base").events.head? = some (.loadCtx "base") ∧
       ∀ old, (CoordState.mk (some "tiny") false ["tiny", "base"]).active
            = some old →
         (switchModel (fun _ => true) ⟨some "tiny", false, ["tiny", "base"]⟩
            "base").events = [.loadCtx "base", .discardCtx old]) ∧
     ((fun _ : ModelId => true) "base" = false →
       switchModel (fun _ => true) ⟨some "tiny", false, ["tiny", "base"]⟩ "base"
          = ⟨.error .modelLoadError,
             ⟨some "tiny", false, ["tiny", "base"]⟩, []⟩)) :=
  ⟨⟨rfl, by decide⟩,
   switchModel_atomic (fun _ => true) ⟨some "tiny", false, ["tiny", "base"]⟩
     "base" rfl (by decide)⟩

/-- C6: `removeModel` on the currently loaded (active) model fails with
`ActiveModelError` and the model file remains present on disk,
untouched. -/
theorem removeModel_active_error (s : CoordState) (name : ModelId)
    (hact : s.active = some name) :
    removeModel s name = (.error .activeModelError, s) ∧
    (removeModel s name).2.files = s.files := by
  constructor <;> simp [removeModel, hact]

/-- Witness for C6: removing the active "tiny" model. -/
theorem removeModel_active_error_witness :
    (CoordState.mk (some "tiny") false ["tiny", "base"]).active = some "tiny" ∧
    (removeModel ⟨some "tiny", false, ["tiny", "base"]⟩ "tiny"
        = (.error .activeModelError, ⟨some "tiny", false, ["tiny", "base"]⟩) ∧
     (removeModel ⟨some "tiny", false, ["tiny", "base"]⟩ "tiny").2.files
        = ["tiny", "base"]) :=
  ⟨rfl, removeModel_active_error ⟨some "tiny", false, ["tiny", "base"]⟩ "tiny" rfl⟩

/-- C7: a key-up event that does not match a currently-armed chord — in
particular any key-up delivered while the machine is Idle — leaves the
machine's state unchanged and emits no transition event. -/
theorem hotkey_keyUp_noop (s : HotkeyState) (k : Chord)
    (h : s = .idle ∨ ∀ c, s = .armed c → k ≠ c) :
    hotkeyStep s (.keyUp k) = (s, none) := by
  cases s with
  | idle => rfl
  | armed c =>
    rcases h with h | h
    · exact absurd h (by simp)
    · simp [hotkeyStep, h c rfl]

/-- Witness for C7: a key-up with no preceding matching key-down while
the machine is Idle. -/
theorem hotkey_keyUp_noop_witness :
    hotkeyStep .idle (.keyUp .optionSpace) = (.idle, none) :=
  hotkey_keyUp_noop .idle .optionSpace (Or.inl rfl)

/-- C8: per-model single-flight in the model-card controller.  While
`inFlightAction` is non-null a further `handleAction` call on the model
is a no-op, and on every exit path of an action (backend success or
rejection) `inFlightAction` and `pendingLabel` end up null, so at most
one action per model executes at a time and the busy flag never
leaks. -/
theorem handleAction_single_flight (env : ActionEnv) (st : ModelState)
    (a : ModelAction) :
    (st.inFlightAction ≠ none → handleAction env st a = st) ∧
    (st.inFlightAction = none →
       (handleAction env st a).inFlightAction = none ∧
       (handleAction env st a).pendingLabel = none) := by
  constructor
  · intro h
    have hs : st.inFlightAction.isSome = true := Option.isSome_iff_ne_none.mpr h
    simp [handleAction, hs]
  · intro h
    have hs : st.inFlightAction.isSome = false := by simp [h]
    by_cases h1 : a = .remove
    · simp [handleAction, hs, h1, h]
    · by_cases h2 : a = .cancelRemove
      · simp [handleAction, hs, h1, h2, h]
      · simp [handleAction, hs, h1, h2, h]

/-- Witness for C8: a `use` action from a quiescent state with a
resolving backend invoke. -/
theorem handleAction_single_flight_witness :
    initialModelState.inFlightAction = none ∧
    ((handleAction ⟨true, "", none⟩ initialModelState .use).inFlightAction
        = none ∧
     (handleAction ⟨true, "", none⟩ initialModelState .use).pendingLabel
        = none) :=
  ⟨rfl, (handleAction_single_flight ⟨true, "", none⟩ initialModelState .use).2 rfl⟩

/-- C9: `computePercent` returns null exactly when `totalBytes` is null
or zero, and otherwise returns a value clamped to `[0, 100]`; in
particular it never divides by zero and never returns a value outside
that range. -/
theorem computePercent_spec (d : ℚ) (t : Option ℚ) :
    (computePercent d t = none ↔ t = none ∨ t = some 0) ∧
    ∀ p : ℚ, computePercent d t = some p → 0 ≤ p ∧ p ≤ 100 := by
  cases t with
  | none => simp [computePercent]
  | some tv =>
    by_cases h : tv = 0
    · subst h
      simp [computePercent]
    · constructor
      · simp [computePercent, h]
      · intro p hp
        simp only [computePercent, if_neg h, Option.some.injEq] at hp
        subst hp
        exact ⟨le_min (by norm_num) (le_max_left 0 _), min_le_left _ _⟩

/-- Witness for C9: 50 of 200 bytes downloaded gives 25 percent, inside
`[0, 100]`. -/
theorem computePercent_spec_witness :
    (0:ℚ) ≤ 25 ∧ (25:ℚ) ≤ 100 :=
  (computePercent_spec 50 (some 200)).2 25 (by norm_num [computePercent])

/-- C10: after `setActiveFromEvent activeName`, an active model state's
name equals `activeName`, no state is active when `activeName` is null,
and (for distinct model names) at most one model state has
`isActive = true`. -/
theorem setActiveFromEvent_unique (states : List (String × ModelState))
    (activeName : Option String) (hnd : (states.map Prod.fst).Nodup) :
    (∀ p ∈ setActiveFromEvent states activeName,
        p.2.isActive = true → activeName = some p.1) ∧
    (activeName = none →
        ∀ p ∈ setActiveFromEvent states activeName, p.2.isActive = false) ∧
    (setActiveFromEvent states activeName).countP (fun p => p.2.isActive) ≤ 1 := by
  refine ⟨?_, ?_, ?_⟩
  · intro p hp hact
    obtain ⟨q, hq, rfl⟩ := List.mem_map.mp hp
    cases activeName with
    | none => simp at hact
    | some a =>
      simp only [beq_iff_eq] at hact
      simp [hact]
  · intro h
    subst h
    intro p hp
    obtain ⟨q, hq, rfl⟩ := List.mem_map.mp hp
    rfl
  · have hc : (setActiveFromEvent states activeName).countP (fun p => p.2.isActive)
        = (states.map Prod.fst).countP
            (fun n => match activeName with | none => false | some a => n == a) := by
      simp only [setActiveFromEvent, List.countP_map]
      congr 1
      funext p
      cases activeName <;> rfl
    rw [hc]
    cases activeName with
    | none => simp
    | some a =>
      have he : (states.map Prod.fst).countP
            (fun n => match some a with | none => false | some a => n == a)
          = (states.map Prod.fst).count a := rfl
      rw [he]
      exact List.nodup_iff_count_le_one.mp hnd a

/-- Witness for C10: two distinct model cards with "base" reported
active. -/
theorem setActiveFromEvent_unique_witness :
    ([("tiny", initialModelState), ("base", initialModelState)].map
        Prod.fst).Nodup ∧
    ((∀ p ∈ setActiveFromEvent
          [("tiny", initialModelState), ("base", initialModelState)]
          (some "base"), p.2.isActive = true → some "base" = some p.1) ∧
     ((some "base" : Option String) = none →
        ∀ p ∈ setActiveFromEvent
          [("tiny", initialModelState), ("base", initialModelState)]
          (some "base"), p.2.isActive = false) ∧
     (setActiveFromEvent
        [("tiny", initialModelState), ("base", initialModelState)]
        (some "base")).countP (fun p => p.2.isActive) ≤ 1) :=
  ⟨by decide,
   setActiveFromEvent_unique
     [("tiny", initialModelState), ("base", initialModelState)]
     (some "base") (by decide)⟩

end Sotto
